import Mathlib

/-!
Shallow embedding of the cursor-usage-monitor extension
(src/src/usageMonitor.ts, with the variant functions of the unnamed
companion file where a claim targets them).

JavaScript numbers are embedded as `Int`; JSON values as the inductive
`Json`; the outcome of `JSON.parse` and of the base64+JSON decoding of a
JWT payload segment are passed in as explicit parameters (`Option Json`,
`none` meaning the parse threw), since the claims under study are about
the logic consuming those outcomes, not about the parser itself.
-/

namespace CursorUsage

/-- A JSON / JavaScript runtime value, as produced by `JSON.parse`. -/
inductive Json where
  | str (s : String)
  | num (n : Int)
  | bool (b : Bool)
  | null
  | obj (fields : List (String × Json))
  | arr (elems : List Json)

/-- JavaScript truthiness of a JSON value (NaN is not modelled). -/
def jsTruthy : Json → Bool
  | .str s => s ≠ ""
  | .num n => n ≠ 0
  | .bool b => b
  | .null => false
  | .obj _ => true
  | .arr _ => true

/-- Property access `v[k]` on a JSON value: a field of an object, else
`undefined` (`none`). -/
def jsonField : Json → String → Option Json
  | .obj fields, k => (fields.find? (fun f => f.1 == k)).map (·.2)
  | _, _ => none

/-- The per-model entry of the usage API response (`UsageData` in
usageMonitor.ts). -/
structure UsageData where
  numRequests : Int
  numTokens : Int
  maxRequestUsage : Option Int
deriving Repr, DecidableEq

/-- A value of the usage-response JSON object: either a `UsageData`
object or a string (the `startOfMonth` field). -/
inductive Entry where
  | usage (u : UsageData)
  | str (s : String)
deriving Repr, DecidableEq

/-- The parsed usage response: the JSON object as an association list,
mirroring `CursorUsageResponse`. -/
abbrev UsageResponse := List (String × Entry)

/-- `ModelUsage` in usageMonitor.ts. -/
structure ModelUsage where
  name : String
  key : String
  used : Int
  limit : Option Int
  percentage : Option Int
deriving Repr, DecidableEq

/-- The fixed model-key → display-name table of `parseUsage`
(src/src/usageMonitor.ts lines 169-176). -/
def modelNames : List (String × String) :=
  [("gpt-4", "Premium (Fast)"),
   ("gpt-3.5-turbo", "Standard"),
   ("gpt-4-32k", "Usage-Based"),
   ("claude-3-opus", "Opus"),
   ("claude-3.5-sonnet", "Sonnet"),
   ("claude-4.5-opus-high-thinking", "Opus 4.5")]

/-- `Math.round (a / b)` for integers with `b > 0`: round half toward
positive infinity, `⌊a / b + 1 / 2⌋ = ⌊(2 a + b) / (2 b)⌋`. -/
def roundDiv (a b : Int) : Int := (2 * a + b).fdiv (2 * b)

/-- One loop iteration of `parseUsage` (lines 181-191): build the
`ModelUsage` record for a key and its `UsageData`. The guard
`limit && limit > 0` is truthy-and-positive, i.e. `0 < L`. -/
def mkModel (key : String) (u : UsageData) : ModelUsage :=
  { name := ((modelNames.find? (fun f => f.1 == key)).map (·.2)).getD key
    key := key
    used := u.numRequests
    limit := u.maxRequestUsage
    percentage :=
      match u.maxRequestUsage with
      | some L => if 0 < L then some (roundDiv (100 * u.numRequests) L) else none
      | none => none }

/-- Sort key of the comparator `(b.percentage || 0) - (a.percentage || 0)`
(src/src/usageMonitor.ts line 194): an absent percentage counts as 0. -/
def pctKey (m : ModelUsage) : Int := m.percentage.getD 0

/-- Stable insertion for a descending sort by `pctKey`: the inserted
element (which precedes the rest in the original list) goes before any
element whose key is ≤ its own. -/
def insertDesc (m : ModelUsage) : List ModelUsage → List ModelUsage
  | [] => [m]
  | x :: xs => if pctKey x ≤ pctKey m then m :: x :: xs else x :: insertDesc m xs

/-- `models.sort((a, b) => (b.percentage || 0) - (a.percentage || 0))`:
a stable sort, descending by `pctKey` (JavaScript array sort is stable,
and the comparator orders exactly by that key). -/
def sortModels : List ModelUsage → List ModelUsage
  | [] => []
  | m :: ms => insertDesc m (sortModels ms)

/-- The loop body of `parseUsage` (lines 178-192): skip the
`startOfMonth` key and any string-valued entry (`typeof value ===
'string'`), otherwise build the record. -/
def entryToModel (e : String × Entry) : Option ModelUsage :=
  if e.1 == "startOfMonth" then none
  else match e.2 with
    | .str _ => none
    | .usage u => some (mkModel e.1 u)

/-- Whether a response value is a `UsageData` object (as opposed to a
string). -/
def isUsage : Entry → Bool
  | .usage _ => true
  | .str _ => false

/-- `parseUsage` (src/src/usageMonitor.ts lines 167-196): one record per
key, skipping `startOfMonth` and string-valued entries, then the sort. -/
def parseUsage (data : UsageResponse) : List ModelUsage :=
  sortModels (data.filterMap entryToModel)

/-- `json.startOfMonth` read off the response object (a string field, or
`undefined` when absent / not a string). -/
def jsonStartOfMonth (data : UsageResponse) : Option String :=
  match data.find? (fun e => e.1 == "startOfMonth") with
  | some (_, .str s) => some s
  | _ => none

/-- Character-list worker for `jsSplit`: split at each leftmost
occurrence of the (non-empty) separator, consuming it. The fuel is the
input length, enough for every recursive call. -/
def splitFuel (sep : List Char) : Nat → List Char → List (List Char)
  | _, [] => [[]]
  | 0, cs => [cs]
  | fuel + 1, c :: cs =>
    if sep ≠ [] ∧ sep.isPrefixOf (c :: cs) then
      [] :: splitFuel sep fuel (List.drop sep.length (c :: cs))
    else
      match splitFuel sep fuel cs with
      | [] => [[c]]
      | h :: t => (c :: h) :: t

/-- JavaScript `s.split(sep)` for a non-empty separator. -/
def jsSplit (sep s : String) : List String :=
  (splitFuel sep.data s.data.length s.data).map (fun cs => String.mk cs)

/-- The credential triple returned by `getAuthDetails`. -/
structure AuthDetails where
  token : String
  userId : String
  sub : String
deriving Repr, DecidableEq

/-- `SELECT value FROM ItemTable WHERE key = 'cursorAuth/accessToken'`
over the ItemTable rows, first matching row. -/
def lookupAccessToken (rows : List (String × String)) : Option String :=
  (rows.find? (fun r => r.1 == "cursorAuth/accessToken")).map (·.2)

/-- The token unwrap of `getAuthDetails` (src/src/usageMonitor.ts lines
90-94): `token = valueStr; try { parsed = JSON.parse(valueStr); token =
typeof parsed === 'string' ? parsed : (parsed.accessToken || parsed) }
catch {}`. `parsed` is the outcome of `JSON.parse valueStr` (`none` when
the parse threw). Accessing `.accessToken` on `null` throws inside the
same `try`, so a parsed `null` also leaves the raw string in place. -/
def unwrapToken (parsed : Option Json) (valueStr : String) : Json :=
  match parsed with
  | none => Json.str valueStr
  | some (Json.str s) => Json.str s
  | some Json.null => Json.str valueStr
  | some p =>
    match jsonField p "accessToken" with
    | some v => if jsTruthy v then v else p
    | none => p

/-- `getAuthDetails` (src/src/usageMonitor.ts lines 72-116) after the
row lookup: unwrap the stored value, then decode the JWT. `jsonParse`
is the outcome of `JSON.parse` on the stored value and `decodePayload`
the outcome of `JSON.parse(Buffer.from(mid, 'base64').toString())` on
the middle token segment. Any thrown step (non-string token reaching
`token.split`, failed payload parse, `sub` not a string so that
`sub.includes` throws) is caught by the per-path `catch` and yields
`none`, as does a missing row, a falsy row value, or a token without
exactly three period-delimited segments. -/
def getAuthDetails (jsonParse : String → Option Json)
    (decodePayload : String → Option Json)
    (rows : List (String × String)) : Option AuthDetails :=
  match lookupAccessToken rows with
  | none => none
  | some valueStr =>
    if valueStr == "" then none
    else
      match unwrapToken (jsonParse valueStr) valueStr with
      | Json.str token =>
        match jsSplit "." token with
        | [_, mid, _] =>
          match decodePayload mid with
          | some payload =>
            match jsonField payload "sub" with
            | some (Json.str sub) =>
              some { token := token
                     userId := if (jsSplit "|" sub).length > 1
                               then (jsSplit "|" sub).getD 1 ""
                               else sub
                     sub := sub }
            | _ => none
          | none => none
        | _ => none
      | _ => none

/-- `decodeUserId` of the companion variant file (unnamed part_000,
lines 136-156): split on `::`, then on `%3A%3A`; otherwise decode a
three-segment JWT and return its truthy `sub` claim as-is; on anything
else (or a thrown decode) return the whole token. The result is a
JavaScript value: the `sub` claim is returned whatever its type. -/
def decodeUserId (decodePayload : String → Option Json) (token : String) : Json :=
  if (jsSplit "::" token).length > 1 then
    Json.str ((jsSplit "::" token).getD 0 "")
  else if (jsSplit "%3A%3A" token).length > 1 then
    Json.str ((jsSplit "%3A%3A" token).getD 0 "")
  else
    match jsSplit "." token with
    | [_, mid, _] =>
      match decodePayload mid with
      | some payload =>
        match jsonField payload "sub" with
        | some v => if jsTruthy v then v else Json.str token
        | none => Json.str token
      | none => Json.str token
    | _ => Json.str token

/-- The fixed priority list of `updateStatusBar`
(src/src/usageMonitor.ts line 200). -/
def prioritizedKeys : List String :=
  ["gpt-4", "claude-3-opus", "claude-4.5-opus-high-thinking", "claude-3.5-sonnet"]

/-- The priority loop of `updateStatusBar` (lines 203-206): for each key
in order, take the first record with that key; stop at the first hit. -/
def findByPriority (keys : List String) (models : List ModelUsage) : Option ModelUsage :=
  match keys with
  | [] => none
  | k :: ks =>
    match models.find? (fun m => m.key == k) with
    | some m => some m
    | none => findByPriority ks models

/-- The primary-record choice of `updateStatusBar` (lines 198-210):
priority keys, else the first record with a non-null limit, else the
first record (`models.find(m => m.limit !== null) || models[0]`). -/
def choosePrimary (models : List ModelUsage) : Option ModelUsage :=
  match findByPriority prioritizedKeys models with
  | some m => some m
  | none =>
    match models.find? (fun m => m.limit != none) with
    | some m => some m
    | none => models.head?

/-- The icon and text of `updateStatusBar` for the primary record
(lines 221-231): the limit-and-percentage branch requires a truthy
limit (`model.limit &&`, so a present non-zero limit) and a non-null
percentage. -/
def renderModel (showPct : Bool) (m : ModelUsage) : String × String :=
  match m.limit, m.percentage with
  | some L, some p =>
    if L != 0 then
      let remaining := L - m.used
      let remainingPct := 100 - p
      let icon := if remainingPct ≤ 10 then "$(error)"
                  else if remainingPct ≤ 30 then "$(warning)"
                  else "$(check)"
      (icon, if showPct then "Cursor: " ++ toString remainingPct ++ "% left"
             else "Cursor: " ++ toString remaining ++ "/" ++ toString L)
    else ("$(check)", "Cursor: " ++ toString m.used ++ " used")
  | _, _ => ("$(check)", "Cursor: " ++ toString m.used ++ " used")

/-- One row of `showDetails` (lines 243-258): label and description. -/
def detailRow (m : ModelUsage) : String × String :=
  match m.limit, m.percentage with
  | some L, some p =>
    if L != 0 then
      let remaining := L - m.used
      let remainingPct := 100 - p
      let icon := if remainingPct ≤ 10 then "🔴"
                  else if remainingPct ≤ 30 then "🟡"
                  else "🟢"
      (icon ++ " " ++ m.name,
       toString remaining ++ "/" ++ toString L ++ " remaining ("
         ++ toString remainingPct ++ "%)")
    else ("⚪" ++ " " ++ m.name, toString m.used ++ " requests used")
  | _, _ => ("⚪" ++ " " ++ m.name, toString m.used ++ " requests used")

/-- The mutable fields of the `UsageMonitor` instance touched by a
refresh cycle: the status-bar item text and visibility, and the cached
usage list and billing-cycle start. -/
structure MonitorState where
  statusText : String
  visible : Bool
  lastUsage : List ModelUsage
  startOfMonth : Option String
deriving Repr, DecidableEq

/-- `updateStatusBar` (lines 198-235): choose the primary record,
render it, set the status-bar text, show the item. -/
def updateStatusBar (showPct : Bool) (st : MonitorState)
    (models : List ModelUsage) : MonitorState :=
  match choosePrimary models with
  | none => { st with statusText := "$(pulse) Cursor: No data", visible := true }
  | some m =>
    let r := renderModel showPct m
    { st with statusText := r.1 ++ " " ++ r.2, visible := true }

/-- The terminal state of one refresh cycle. -/
inductive RefreshOutcome where
  | displayed
  | notSignedIn
  | errored
deriving Repr, DecidableEq

/-- The response handling of `fetchUsage` (lines 148-158): a non-200
status throws, then the body is parsed as JSON (`body = none` models a
parse failure) and fed to `parseUsage`; `startOfMonth` is passed on
verbatim. A thrown step rejects the promise (`Except.error`). -/
def fetchUsageResult (statusCode : Nat) (body : Option UsageResponse) :
    Except String (List ModelUsage × Option String) :=
  if statusCode ≠ 200 then Except.error s!"API error {statusCode}"
  else
    match body with
    | none => Except.error "JSON parse error"
    | some json => Except.ok (parseUsage json, jsonStartOfMonth json)

/-- `refresh` (src/src/usageMonitor.ts lines 50-70): the whole body is
wrapped in try/catch. No credential → the not-signed-in text; a
rejected fetch → the error text; a successful fetch overwrites
`lastUsage` and `startOfMonth` and re-renders the status bar. -/
def refresh (showPct : Bool) (st : MonitorState) (auth : Option AuthDetails)
    (statusCode : Nat) (body : Option UsageResponse) :
    MonitorState × RefreshOutcome :=
  match auth with
  | none =>
    ({ st with statusText := "$(warning) Cursor: Not signed in", visible := true },
     RefreshOutcome.notSignedIn)
  | some _ =>
    match fetchUsageResult statusCode body with
    | Except.error _ =>
      ({ st with statusText := "$(error) Cursor: Error", visible := true },
       RefreshOutcome.errored)
    | Except.ok r =>
      (updateStatusBar showPct
        { st with lastUsage := r.1, startOfMonth := r.2 } r.1,
       RefreshOutcome.displayed)

/-! ## Arithmetic facts about the percentage computation -/

theorem roundDiv_eq_ediv (a b : Int) (hb : 0 < b) :
    roundDiv a b = (2 * a + b) / (2 * b) := by
  unfold roundDiv
  exact Int.fdiv_eq_ediv _ (by omega)

theorem roundDiv_nonneg (a b : Int) (hb : 0 < b) (ha : 0 ≤ a) :
    0 ≤ roundDiv a b := by
  rw [roundDiv_eq_ediv a b hb]
  exact Int.ediv_nonneg (by omega) (by omega)

theorem roundDiv_le (a b c : Int) (hb : 0 < b) (h : a ≤ c * b) :
    roundDiv a b ≤ c := by
  rw [roundDiv_eq_ediv a b hb]
  have hd := Int.ediv_add_emod (2 * a + b) (2 * b)
  have h1 : 0 ≤ (2 * a + b) % (2 * b) := Int.emod_nonneg _ (by omega)
  have h2 : (2 * a + b) % (2 * b) < 2 * b := Int.emod_lt_of_pos _ (by omega)
  nlinarith [hd, h1, h2]

theorem roundDiv_eq_floor (a b : Int) (hb : 0 < b) :
    roundDiv a b = ⌊(a : ℚ) / (b : ℚ) + 1 / 2⌋ := by
  rw [roundDiv_eq_ediv a b hb]
  have hcast : ((a : ℚ) / (b : ℚ) + 1 / 2)
      = ((2 * a + b : Int) : ℚ) / (((2 * b).toNat : ℕ) : ℚ) := by
    have hb0 : (b : ℚ) ≠ 0 := by exact_mod_cast hb.ne.symm
    have ht : (((2 * b).toNat : ℕ) : ℚ) = ((2 * b : Int) : ℚ) := by
      have h2b : ((2 * b).toNat : Int) = 2 * b := Int.toNat_of_nonneg (by omega)
      exact_mod_cast congrArg (fun z : Int => (z : ℚ)) h2b
    rw [ht]
    push_cast
    field_simp
    ring
  rw [hcast, Rat.floor_intCast_div_natCast]
  have h2b : ((2 * b).toNat : Int) = 2 * b := Int.toNat_of_nonneg (by omega)
  rw [h2b]

/-! ## The sort of parseUsage: a stable descending insertion sort -/

theorem insertDesc_perm (m : ModelUsage) (l : List ModelUsage) :
    (insertDesc m l).Perm (m :: l) := by
  induction l with
  | nil => simp [insertDesc]
  | cons x xs ih =>
    by_cases h : pctKey x ≤ pctKey m
    · simp [insertDesc, h]
    · simp only [insertDesc, if_neg h]
      exact ((ih.cons x).trans (List.Perm.swap m x xs))

theorem sortModels_perm (l : List ModelUsage) : (sortModels l).Perm l := by
  induction l with
  | nil => simp [sortModels]
  | cons m ms ih =>
    exact (insertDesc_perm m (sortModels ms)).trans (ih.cons m)

theorem mem_insertDesc {y m : ModelUsage} {l : List ModelUsage} :
    y ∈ insertDesc m l ↔ y = m ∨ y ∈ l := by
  constructor
  · intro h
    exact List.mem_cons.mp ((insertDesc_perm m l).mem_iff.mp h)
  · intro h
    apply (insertDesc_perm m l).mem_iff.mpr
    simpa using h

theorem insertDesc_pairwise {m : ModelUsage} {l : List ModelUsage}
    (h : l.Pairwise (fun a b => pctKey b ≤ pctKey a)) :
    (insertDesc m l).Pairwise (fun a b => pctKey b ≤ pctKey a) := by
  induction l with
  | nil => simp [insertDesc]
  | cons x xs ih =>
    rcases List.pairwise_cons.mp h with ⟨hx, hxs⟩
    by_cases hc : pctKey x ≤ pctKey m
    · simp only [insertDesc, if_pos hc]
      refine List.pairwise_cons.mpr ⟨?_, h⟩
      intro y hy
      rcases List.mem_cons.mp hy with rfl | hy
      · exact hc
      · exact le_trans (hx y hy) hc
    · simp only [insertDesc, if_neg hc]
      refine List.pairwise_cons.mpr ⟨?_, ih hxs⟩
      intro y hy
      rcases mem_insertDesc.mp hy with rfl | hy
      · exact le_of_lt (lt_of_not_le hc)
      · exact hx y hy

theorem sortModels_pairwise (l : List ModelUsage) :
    (sortModels l).Pairwise (fun a b => pctKey b ≤ pctKey a) := by
  induction l with
  | nil => simp [sortModels]
  | cons m ms ih => exact insertDesc_pairwise ih

theorem mem_parseUsage {m : ModelUsage} {data : UsageResponse}
    (h : m ∈ parseUsage data) :
    ∃ k u, (k, Entry.usage u) ∈ data ∧ k ≠ "startOfMonth" ∧ m = mkModel k u := by
  have h' := (sortModels_perm _).mem_iff.mp h
  rcases List.mem_filterMap.mp h' with ⟨e, he, hfe⟩
  by_cases hk : e.1 == "startOfMonth"
  · simp [entryToModel, hk] at hfe
  · cases hv : e.2 with
    | str s => simp [entryToModel, hk, hv] at hfe
    | usage u =>
      refine ⟨e.1, u, ?_, ?_, ?_⟩
      · rw [← hv]; exact he
      · simpa using hk
      · simp only [Bool.not_eq_true] at hk
        simp [entryToModel, hk, hv] at hfe
        exact hfe.symm

/-! ## The claims -/

/-- C1, counterexample: `parseUsage` does not keep `percentageUsed` within
0–100 when used exceeds the limit — used = 200 with limit = 100 yields
percentage 200. -/
theorem parseUsage_percentage_exceeds_100 :
    (parseUsage [("gpt-4", Entry.usage ⟨200, 0, some 100⟩)]).map ModelUsage.percentage
      = [some 200] ∧ ¬ ((200 : Int) ≤ 100) := by
  decide

/-- C1, amended: for non-negative used counts, every present
`percentageUsed` produced by `parseUsage` is a non-negative integer, and
it is at most 100 whenever used is at most the limit; it can exceed 100
when used exceeds the limit. -/
theorem parseUsage_percentage_bounds (data : UsageResponse)
    (hused : ∀ k u, (k, Entry.usage u) ∈ data → 0 ≤ u.numRequests) :
    ∀ m ∈ parseUsage data, ∀ p, m.percentage = some p →
      0 ≤ p ∧ ∀ L, m.limit = some L → m.used ≤ L → p ≤ 100 := by
  intro m hm p hp
  rcases mem_parseUsage hm with ⟨k, u, hmem, _, rfl⟩
  have hu : 0 ≤ u.numRequests := hused k u hmem
  simp only [mkModel] at hp ⊢
  rcases hL : u.maxRequestUsage with _ | L
  · rw [hL] at hp; simp at hp
  · rw [hL] at hp
    have hp' : (if 0 < L then some (roundDiv (100 * u.numRequests) L) else none)
        = some p := hp
    by_cases hpos : 0 < L
    · rw [if_pos hpos] at hp'
      rcases Option.some.inj hp' with rfl
      constructor
      · exact roundDiv_nonneg _ _ hpos (by omega)
      · intro L' hL' hle
        rcases Option.some.inj hL' with rfl
        exact roundDiv_le _ _ _ hpos (by nlinarith)
    · rw [if_neg hpos] at hp'; exact absurd hp' (by simp)

/-- C1, witness: the amended bounds at used = 80, limit = 100. -/
theorem parseUsage_percentage_bounds_witness :
    0 ≤ (80 : Int) ∧ ∀ L, (mkModel "gpt-4" ⟨80, 0, some 100⟩).limit = some L →
      (mkModel "gpt-4" ⟨80, 0, some 100⟩).used ≤ L → (80 : Int) ≤ 100 :=
  parseUsage_percentage_bounds [("gpt-4", Entry.usage ⟨80, 0, some 100⟩)]
    (by
      intro k u hmem
      have h := List.mem_singleton.mp hmem
      injection h with h1 h2
      injection h2 with h3
      rw [h3]
      decide)
    (mkModel "gpt-4" ⟨80, 0, some 100⟩) (by decide) 80 (by decide)

/-- C2, counterexample: a record with absent percentage can precede a
record with percentage exactly 0 in the output of `parseUsage` (the
comparator treats an absent percentage as 0 and the sort is stable), so
absent-percentage records are not always last. -/
theorem parseUsage_absent_before_zero :
    parseUsage [("a", Entry.usage ⟨5, 0, none⟩), ("b", Entry.usage ⟨0, 0, some 10⟩)]
        = [mkModel "a" ⟨5, 0, none⟩, mkModel "b" ⟨0, 0, some 10⟩]
      ∧ (mkModel "a" ⟨5, 0, none⟩).percentage = none
      ∧ (mkModel "b" ⟨0, 0, some 10⟩).percentage = some 0
      ∧ ¬ ((parseUsage [("a", Entry.usage ⟨5, 0, none⟩),
              ("b", Entry.usage ⟨0, 0, some 10⟩)]).Pairwise
            (fun x y => x.percentage = none → y.percentage = none)) := by
  refine ⟨by decide, by decide, by decide, by decide⟩

/-- C2, amended: `parseUsage` output is sorted descending by
percentage-with-absent-treated-as-0; consequently a record with absent
percentage is never followed by a record of positive percentage, but it
may precede records whose percentage is exactly 0. -/
theorem parseUsage_sorted (data : UsageResponse) :
    ((parseUsage data).Pairwise (fun a b => pctKey b ≤ pctKey a))
      ∧ ((parseUsage data).Pairwise (fun a b => a.percentage = none → pctKey b ≤ 0)) := by
  refine ⟨sortModels_pairwise _, ?_⟩
  refine (sortModels_pairwise _).imp ?_
  intro a b hle ha
  simpa [pctKey, ha] using hle

/-- C3: `percentageUsed` is present iff the limit is present and strictly
positive (absent, zero and negative limits all give an absent
percentage), and when present it equals `round (100 × used / limit)`,
rounding half toward positive infinity as `Math.round` does. -/
theorem mkModel_percentage_spec (key : String) (u : UsageData) :
    ((mkModel key u).percentage ≠ none ↔ ∃ L, u.maxRequestUsage = some L ∧ 0 < L)
      ∧ ∀ L, u.maxRequestUsage = some L → 0 < L →
          (mkModel key u).percentage
            = some ⌊(100 * u.numRequests : ℚ) / (L : ℚ) + 1 / 2⌋ := by
  constructor
  · constructor
    · intro h
      rcases hL : u.maxRequestUsage with _ | L
      · simp [mkModel, hL] at h
      · refine ⟨L, rfl, ?_⟩
        by_contra hpos
        simp [mkModel, hL, hpos] at h
    · rintro ⟨L, hL, hpos⟩
      simp [mkModel, hL, hpos]
  · intro L hL hpos
    have hpct : (mkModel key u).percentage
        = some (roundDiv (100 * u.numRequests) L) := by
      simp [mkModel, hL, hpos]
    rw [hpct, roundDiv_eq_floor _ _ hpos]
    norm_num

/-- C3, witness: used = 80, limit = 100 yields percentage
`round (8000 / 100) = 80`. -/
theorem mkModel_percentage_spec_witness :
    (mkModel "gpt-4" ⟨80, 0, some 100⟩).percentage
        = some ⌊(100 * 80 : ℚ) / (100 : ℚ) + 1 / 2⌋
      ∧ (⌊(100 * 80 : ℚ) / (100 : ℚ) + 1 / 2⌋ : Int) = 80 :=
  ⟨(mkModel_percentage_spec "gpt-4" ⟨80, 0, some 100⟩).2 100 rfl (by decide),
   by norm_num⟩

/-- C4: for a record with a present (non-zero) limit and a present
percentage, both the status-bar icon and the detail-row icon are chosen
from remainingPercent = 100 − percentage: critical when ≤ 10 (so
exactly 10 is critical), warning when 10 < remainingPercent ≤ 30 (so
exactly 30 is warning), ok when > 30. -/
theorem tier_thresholds (showPct : Bool) (m : ModelUsage) (L p : Int)
    (hL : m.limit = some L) (hL0 : L ≠ 0) (hp : m.percentage = some p) :
    ((100 - p ≤ 10 →
        (renderModel showPct m).1 = "$(error)"
          ∧ (detailRow m).1 = "🔴" ++ " " ++ m.name)
      ∧ (10 < 100 - p → 100 - p ≤ 30 →
        (renderModel showPct m).1 = "$(warning)"
          ∧ (detailRow m).1 = "🟡" ++ " " ++ m.name)
      ∧ (30 < 100 - p →
        (renderModel showPct m).1 = "$(check)"
          ∧ (detailRow m).1 = "🟢" ++ " " ++ m.name)) := by
  rcases m with ⟨name, key, used, limit, pct⟩
  simp only at hL hp
  subst hL
  subst hp
  have hb : (L != 0) = true := by simpa using hL0
  refine ⟨?_, ?_, ?_⟩
  · intro h1
    constructor
    · simp [renderModel, hb, h1]
    · simp [detailRow, hb, h1]
  · intro h1 h2
    have hn : ¬ (100 - p ≤ 10) := by omega
    constructor
    · simp [renderModel, hb, hn, h2]
    · simp [detailRow, hb, hn, h2]
  · intro h1
    have hn : ¬ (100 - p ≤ 10) := by omega
    have hn2 : ¬ (100 - p ≤ 30) := by omega
    constructor
    · simp [renderModel, hb, hn, hn2]
    · simp [detailRow, hb, hn, hn2]

/-- C4, witness: percentage 90 (remainingPercent exactly 10) yields the
critical icon in both renderings. -/
theorem tier_thresholds_witness :
    (renderModel true ⟨"Premium (Fast)", "gpt-4", 90, some 100, some 90⟩).1 = "$(error)"
      ∧ (detailRow ⟨"Premium (Fast)", "gpt-4", 90, some 100, some 90⟩).1
          = "🔴" ++ " " ++ "Premium (Fast)" :=
  (tier_thresholds true ⟨"Premium (Fast)", "gpt-4", 90, some 100, some 90⟩ 100 90
    rfl (by decide) rfl).1 (by decide)

/-- C5, counterexample: for a stored value that parses to a JSON object
with no `accessToken` field, the unwrap yields the parsed object itself,
not the raw input string — so the claim's fallback-to-raw-string clause
fails. -/
theorem unwrap_object_without_accessToken :
    unwrapToken (some (Json.obj [("foo", Json.num 1)])) "\x7b\"foo\":1\x7d"
        = Json.obj [("foo", Json.num 1)]
      ∧ Json.obj [("foo", Json.num 1)] ≠ Json.str "\x7b\"foo\":1\x7d" :=
  ⟨rfl, fun h => Json.noConfusion h⟩

/-- C5, amended: the unwrap never fails; a parse failure (or a parsed
`null`, whose property access throws inside the same try) yields the
raw string, a JSON string yields its decoded content, a truthy
`accessToken` field yields that field's value, and any other parsed
JSON value with a missing or falsy `accessToken` yields the parsed
value itself (not the raw string). -/
theorem unwrapToken_spec (valueStr : String) (parsed : Option Json) :
    ((parsed = none → unwrapToken parsed valueStr = Json.str valueStr)
      ∧ (∀ s, parsed = some (Json.str s) → unwrapToken parsed valueStr = Json.str s)
      ∧ (parsed = some Json.null → unwrapToken parsed valueStr = Json.str valueStr)
      ∧ (∀ p, parsed = some p → (∀ s, p ≠ Json.str s) → p ≠ Json.null →
          ((∀ v, jsonField p "accessToken" = some v → jsTruthy v = true →
              unwrapToken parsed valueStr = v)
            ∧ (jsonField p "accessToken" = none → unwrapToken parsed valueStr = p)
            ∧ (∀ v, jsonField p "accessToken" = some v → jsTruthy v = false →
              unwrapToken parsed valueStr = p)))) := by
  refine ⟨?_, ?_, ?_, ?_⟩
  · rintro rfl; rfl
  · rintro s rfl; rfl
  · rintro rfl; rfl
  · rintro p rfl hs hn
    have hshape : unwrapToken (some p) valueStr
        = (match jsonField p "accessToken" with
           | some v => if jsTruthy v then v else p
           | none => p) := by
      cases p with
      | str t => exact absurd rfl (hs t)
      | null => exact absurd rfl hn
      | num n => rfl
      | bool b => rfl
      | obj fields => rfl
      | arr elems => rfl
    refine ⟨?_, ?_, ?_⟩
    · intro v hv htr
      rw [hshape, hv]
      simp [htr]
    · intro hv
      rw [hshape, hv]
    · intro v hv htr
      rw [hshape, hv]
      simp [htr]

/-- C5, witness: a JSON object with a truthy `accessToken` field yields
that field's value. -/
theorem unwrapToken_spec_witness :
    unwrapToken (some (Json.obj [("accessToken", Json.str "abc")])) "raw"
      = Json.str "abc" :=
  ((unwrapToken_spec "raw" (some (Json.obj [("accessToken", Json.str "abc")]))).2.2.2
    (Json.obj [("accessToken", Json.str "abc")]) rfl
    (fun s h => Json.noConfusion h) (fun h => Json.noConfusion h)).1
    (Json.str "abc") rfl rfl

/-- C6, counterexample: for a three-segment token whose payload decodes
to a `sub` claim containing `|`, `decodeUserId` returns the whole `sub`
claim, not the part after `|` — the claim's split-on-`|` clause fails. -/
theorem decodeUserId_keeps_full_sub :
    decodeUserId
        (fun mid => if mid == "p"
          then some (Json.obj [("sub", Json.str "auth0|user123")]) else none)
        "h.p.s"
        = Json.str "auth0|user123"
      ∧ Json.str "auth0|user123" ≠ Json.str "user123" :=
  ⟨rfl, by intro h; injection h with h'; exact absurd h' (by decide)⟩

/-- C6, amended: `decodeUserId` returns the substring before the first
`::` (else `%3A%3A`) when the token contains one; otherwise, for a
three-period-segment token whose middle decodes to a payload with a
truthy `sub` claim, it returns that claim in full (no splitting on `|`);
in every remaining case it returns the whole token. (The split on `|`
taking the second part exists only in the `getAuthDetails` variant,
which performs no separator check.) -/
theorem decodeUserId_spec (decodePayload : String → Option Json) (token : String) :
    (((jsSplit "::" token).length > 1 →
        decodeUserId decodePayload token = Json.str ((jsSplit "::" token).getD 0 ""))
      ∧ (¬ (jsSplit "::" token).length > 1 → (jsSplit "%3A%3A" token).length > 1 →
        decodeUserId decodePayload token = Json.str ((jsSplit "%3A%3A" token).getD 0 ""))
      ∧ (¬ (jsSplit "::" token).length > 1 → ¬ (jsSplit "%3A%3A" token).length > 1 →
          ∀ h mid t payload, jsSplit "." token = [h, mid, t] →
            decodePayload mid = some payload →
            ∀ v, jsonField payload "sub" = some v → jsTruthy v = true →
              decodeUserId decodePayload token = v)
      ∧ (¬ (jsSplit "::" token).length > 1 → ¬ (jsSplit "%3A%3A" token).length > 1 →
          (∀ h mid t, jsSplit "." token ≠ [h, mid, t]) →
            decodeUserId decodePayload token = Json.str token)) := by
  refine ⟨?_, ?_, ?_, ?_⟩
  · intro h1
    simp only [decodeUserId, if_pos h1]
  · intro h1 h2
    simp only [decodeUserId, if_neg h1, if_pos h2]
  · intro h1 h2 h mid t payload hsplit hdec v hsub htr
    simp only [decodeUserId, if_neg h1, if_neg h2, hsplit, hdec, hsub, htr, if_pos]
  · intro h1 h2 h3
    simp only [decodeUserId, if_neg h1, if_neg h2]

/-- C6, witness: a token with a `::` separator yields the part before
it. -/
theorem decodeUserId_spec_witness :
    decodeUserId (fun _ => none) "abc::def" = Json.str "abc" :=
  (decodeUserId_spec (fun _ => none) "abc::def").1 (by decide)

/-- C7: the primary record is the first match of the fixed priority-key
order; failing that, the first record with a non-null limit; failing
that, the first record; and the choice is empty — showing the neutral
no-data text — exactly when the record list is empty. -/
theorem choosePrimary_spec (showPct : Bool) (st : MonitorState)
    (models : List ModelUsage) :
    ((choosePrimary models = none ↔ models = [])
      ∧ (∀ m, findByPriority prioritizedKeys models = some m →
          choosePrimary models = some m)
      ∧ (findByPriority prioritizedKeys models = none →
          ∀ m, models.find? (fun x => x.limit != none) = some m →
            choosePrimary models = some m)
      ∧ (findByPriority prioritizedKeys models = none →
          models.find? (fun x => x.limit != none) = none →
            choosePrimary models = models.head?)
      ∧ (models = [] →
          (updateStatusBar showPct st models).statusText = "$(pulse) Cursor: No data")
      ∧ (models ≠ [] → ∃ m, choosePrimary models = some m ∧
          (updateStatusBar showPct st models).statusText
            = (renderModel showPct m).1 ++ " " ++ (renderModel showPct m).2)) := by
  have hnone : choosePrimary models = none ↔ models = [] := by
    constructor
    · intro h
      unfold choosePrimary at h
      cases hf : findByPriority prioritizedKeys models with
      | some m => rw [hf] at h; exact absurd h (by simp)
      | none =>
        rw [hf] at h
        cases hl : models.find? (fun x => x.limit != none) with
        | some m => rw [hl] at h; exact absurd h (by simp)
        | none =>
          rw [hl] at h
          exact List.head?_eq_none_iff.mp h
    · rintro rfl
      rfl
  refine ⟨hnone, ?_, ?_, ?_, ?_, ?_⟩
  · intro m hf
    unfold choosePrimary
    rw [hf]
  · intro hf m hl
    unfold choosePrimary
    rw [hf, hl]
  · intro hf hl
    unfold choosePrimary
    rw [hf, hl]
  · rintro rfl
    rfl
  · intro hne
    cases hc : choosePrimary models with
    | none => exact absurd (hnone.mp hc) hne
    | some m =>
      refine ⟨m, rfl, ?_⟩
      unfold updateStatusBar
      rw [hc]

/-- C7, witness: a non-empty list whose only record matches no priority
key and has no limit still yields a primary record (the first one), not
the no-data indicator. -/
theorem choosePrimary_spec_witness :
    choosePrimary [mkModel "other-model" ⟨5, 0, none⟩]
      = some (mkModel "other-model" ⟨5, 0, none⟩) :=
  (choosePrimary_spec true ⟨"", false, [], none⟩
    [mkModel "other-model" ⟨5, 0, none⟩]).2.2.2.1 (by decide) (by decide)

theorem filterMap_entryToModel_keys (data : UsageResponse)
    (hshape : ∀ e ∈ data, e.1 ≠ "startOfMonth" → isUsage e.2 = true) :
    (data.filterMap entryToModel).map ModelUsage.key
      = (data.map Prod.fst).filter (fun k => k != "startOfMonth") := by
  induction data with
  | nil => rfl
  | cons e rest ih =>
    have hrest : ∀ e' ∈ rest, e'.1 ≠ "startOfMonth" → isUsage e'.2 = true :=
      fun e' he' => hshape e' (List.mem_cons_of_mem _ he')
    by_cases hk : e.1 == "startOfMonth"
    · simp only [List.filterMap_cons, List.map_cons, List.filter_cons, entryToModel,
        if_pos hk, bne, hk, Bool.not_true]
      exact ih hrest
    · have hne : e.1 ≠ "startOfMonth" := by simpa using hk
      have hu := hshape e (List.mem_cons_self e rest) hne
      cases hv : e.2 with
      | str s => rw [hv] at hu; simp [isUsage] at hu
      | usage u =>
        have hbne : (e.1 != "startOfMonth") = true := by simpa [bne] using hk
        simp only [List.filterMap_cons, List.map_cons, List.filter_cons, entryToModel, hv,
          if_neg hk, hbne, if_true]
        exact congrArg (fun l => (mkModel e.1 u).key :: l) (ih hrest)

/-- C8: when every non-`startOfMonth` value of the response is a usage
object (the documented response shape), `parseUsage` yields exactly one
record per top-level key other than `startOfMonth` (the output key list
is a permutation of those keys), each record comes from its own entry
with the display name taken from the fixed table (falling back to the
raw key), and a 200 response passes `startOfMonth` through verbatim
next to the parsed list. -/
theorem parseUsage_one_record_per_key (data : UsageResponse)
    (hshape : ∀ e ∈ data, e.1 ≠ "startOfMonth" → isUsage e.2 = true) :
    (((parseUsage data).map ModelUsage.key).Perm
        ((data.map Prod.fst).filter (fun k => k != "startOfMonth")))
      ∧ (∀ m ∈ parseUsage data, ∃ u, (m.key, Entry.usage u) ∈ data ∧ m = mkModel m.key u)
      ∧ (∀ m ∈ parseUsage data,
          m.name = ((modelNames.find? (fun f => f.1 == m.key)).map (·.2)).getD m.key)
      ∧ (∀ s, jsonStartOfMonth data = some s →
          fetchUsageResult 200 (some data) = Except.ok (parseUsage data, some s)) := by
  refine ⟨?_, ?_, ?_, ?_⟩
  · have hperm := (sortModels_perm (data.filterMap entryToModel)).map ModelUsage.key
    rw [filterMap_entryToModel_keys data hshape] at hperm
    exact hperm
  · intro m hm
    rcases mem_parseUsage hm with ⟨k, u, hmem, _, rfl⟩
    exact ⟨u, hmem, rfl⟩
  · intro m hm
    rcases mem_parseUsage hm with ⟨k, u, hmem, _, rfl⟩
    rfl
  · intro s hs
    simp [fetchUsageResult, hs]

/-- C8, witness: the spec's fixture response yields exactly the key
gpt-4. -/
theorem parseUsage_one_record_per_key_witness :
    ((parseUsage [("gpt-4", Entry.usage ⟨450, 0, some 500⟩),
        ("startOfMonth", Entry.str "2024-01-01")]).map ModelUsage.key).Perm ["gpt-4"] :=
  (parseUsage_one_record_per_key
    [("gpt-4", Entry.usage ⟨450, 0, some 500⟩), ("startOfMonth", Entry.str "2024-01-01")]
    (by decide)).1

theorem updateStatusBar_preserves (showPct : Bool) (st : MonitorState)
    (models : List ModelUsage) :
    (updateStatusBar showPct st models).lastUsage = st.lastUsage
      ∧ (updateStatusBar showPct st models).startOfMonth = st.startOfMonth := by
  unfold updateStatusBar
  cases choosePrimary models <;> exact ⟨rfl, rfl⟩

/-- C9: `refresh` is a total function of its inputs (the try/catch
converts every failure into a state update): a missing credential sets
the not-signed-in status text, a non-200 status or a body that fails to
parse sets the error status text, and a rows table with no
`cursorAuth/accessToken` key yields no credential. -/
theorem refresh_outcomes (showPct : Bool) (st : MonitorState) (auth : Option AuthDetails)
    (statusCode : Nat) (body : Option UsageResponse) :
    ((auth = none →
        (refresh showPct st auth statusCode body).2 = RefreshOutcome.notSignedIn
          ∧ (refresh showPct st auth statusCode body).1.statusText
              = "$(warning) Cursor: Not signed in")
      ∧ (auth ≠ none → statusCode ≠ 200 →
        (refresh showPct st auth statusCode body).2 = RefreshOutcome.errored
          ∧ (refresh showPct st auth statusCode body).1.statusText
              = "$(error) Cursor: Error")
      ∧ (auth ≠ none → body = none →
        (refresh showPct st auth statusCode body).2 = RefreshOutcome.errored
          ∧ (refresh showPct st auth statusCode body).1.statusText
              = "$(error) Cursor: Error")
      ∧ (∀ jsonParse decodePayload rows, lookupAccessToken rows = none →
          getAuthDetails jsonParse decodePayload rows = none)) := by
  refine ⟨?_, ?_, ?_, ?_⟩
  · rintro rfl
    exact ⟨rfl, rfl⟩
  · intro ha hsc
    rcases Option.ne_none_iff_exists.mp ha with ⟨a, rfl⟩
    simp [refresh, fetchUsageResult, hsc]
  · intro ha hb
    rcases Option.ne_none_iff_exists.mp ha with ⟨a, rfl⟩
    subst hb
    by_cases hsc : statusCode = 200 <;> simp [refresh, fetchUsageResult, hsc]
  · intro jsonParse decodePayload rows h
    simp [getAuthDetails, h]

/-- C9, witness: a fixture rows table with no matching key yields the
not-signed-in outcome and status text. -/
theorem refresh_outcomes_witness :
    getAuthDetails (fun _ => none) (fun _ => none) [("someOtherKey", "x")] = none
      ∧ (refresh true ⟨"", false, [], none⟩
          (getAuthDetails (fun _ => none) (fun _ => none) [("someOtherKey", "x")])
          200 none).2 = RefreshOutcome.notSignedIn
      ∧ (refresh true ⟨"", false, [], none⟩
          (getAuthDetails (fun _ => none) (fun _ => none) [("someOtherKey", "x")])
          200 none).1.statusText = "$(warning) Cursor: Not signed in" := by
  have hspec := refresh_outcomes true ⟨"", false, [], none⟩
      (getAuthDetails (fun _ => none) (fun _ => none) [("someOtherKey", "x")]) 200 none
  have hnone := hspec.2.2.2 (fun _ => none) (fun _ => none) [("someOtherKey", "x")]
    (by decide)
  exact ⟨hnone, (hspec.1 hnone).1, (hspec.1 hnone).2⟩

/-- C10: when a refresh ends in the not-signed-in or error outcome, the
stored `lastUsage` and `startOfMonth` are unchanged; they are
overwritten (with the fetched values) only when the fetch succeeds. -/
theorem refresh_preserves_on_failure (showPct : Bool) (st : MonitorState)
    (auth : Option AuthDetails) (statusCode : Nat) (body : Option UsageResponse) :
    (((refresh showPct st auth statusCode body).2 = RefreshOutcome.notSignedIn
        ∨ (refresh showPct st auth statusCode body).2 = RefreshOutcome.errored) →
      (refresh showPct st auth statusCode body).1.lastUsage = st.lastUsage
        ∧ (refresh showPct st auth statusCode body).1.startOfMonth = st.startOfMonth)
    ∧ ((refresh showPct st auth statusCode body).2 = RefreshOutcome.displayed →
      ∃ r, fetchUsageResult statusCode body = Except.ok r
        ∧ (refresh showPct st auth statusCode body).1.lastUsage = r.1
        ∧ (refresh showPct st auth statusCode body).1.startOfMonth = r.2) := by
  cases auth with
  | none =>
    refine ⟨fun _ => ⟨rfl, rfl⟩, fun h => ?_⟩
    simp [refresh] at h
  | some a =>
    cases hfr : fetchUsageResult statusCode body with
    | error e =>
      refine ⟨fun _ => ?_, fun h => ?_⟩
      · simp [refresh, hfr]
      · simp [refresh, hfr] at h
    | ok r =>
      refine ⟨fun h => ?_, fun _ => ?_⟩
      · simp [refresh, hfr] at h
      · refine ⟨r, rfl, ?_, ?_⟩
        · simp [refresh, hfr, (updateStatusBar_preserves showPct _ r.1).1]
        · simp [refresh, hfr, (updateStatusBar_preserves showPct _ r.1).2]

/-- C10, witness: a refresh hitting HTTP 500 leaves the cached usage
list and billing-cycle start untouched. -/
theorem refresh_preserves_on_failure_witness :
    (refresh true ⟨"t", true, [mkModel "gpt-4" ⟨1, 0, some 2⟩], some "2024-01-01"⟩
        (some ⟨"tok", "uid", "sub0"⟩) 500 none).1.lastUsage
        = [mkModel "gpt-4" ⟨1, 0, some 2⟩]
      ∧ (refresh true ⟨"t", true, [mkModel "gpt-4" ⟨1, 0, some 2⟩], some "2024-01-01"⟩
        (some ⟨"tok", "uid", "sub0"⟩) 500 none).1.startOfMonth = some "2024-01-01" :=
  (refresh_preserves_on_failure true
    ⟨"t", true, [mkModel "gpt-4" ⟨1, 0, some 2⟩], some "2024-01-01"⟩
    (some ⟨"tok", "uid", "sub0"⟩) 500 none).1 (Or.inr (by decide))

end CursorUsage
